import Mathlib

/-!
Verification of the CSV → relational-store importer (`load_data.py`).

The script reads a fixed list of CSV files, creates one `Route` per distinct
route name, one `Trip` per data row and one `StopTime` per configured stop
column, inside a single SQLAlchemy session that is committed once at the end.

Shallow embedding notes (semantics of the modelled store layer):
* `Session` carries the committed database plus the uncommitted writes of the
  one open transaction (`txn`).  `session.flush()` issues the INSERTs inside
  the open transaction; in this model a flushed (or pending) row simply lives
  in `txn` until `commit` or `rollback`.
* `session.rollback()` rolls back the *entire* open transaction (there are no
  savepoints in the source), i.e. it discards all of `txn`.
* Primary keys come from PostgreSQL sequences, which are non-transactional:
  the id counters are NOT reset by a rollback.
* The tables carry foreign keys (`trips.route_id → routes.route_id`,
  declared in the source models); PostgreSQL checks them immediately at
  INSERT time, so flushing a `Trip` whose `route_id` does not exist in the
  transaction's view raises (modelled as the failure branch of `processRow`).
* A pandas row is modelled as an association list from column name to
  `Option String`; `none` models a NaN/null cell, a missing key models a
  column absent from the file's schema.  Exceptions that the Python code can
  raise while building a row's objects are modelled by boolean oracles
  (`rowRaises`, `routeRaises`), since they depend on runtime conditions
  outside the data itself.
-/

/-- `routes` table row (class `Route` in the source). -/
structure Route where
  route_id : Nat
  route_name : String
deriving DecidableEq

/-- `trips` table row (class `Trip` in the source). -/
structure Trip where
  trip_id : Nat
  route_id : Nat
  day_type : String
  notes : Option String
deriving DecidableEq

/-- `stop_times` table row (class `StopTime` in the source). -/
structure StopTime where
  stop_time_id : Nat
  trip_id : Nat
  stop_name : String
  time : String
  stop_sequence : Nat
deriving DecidableEq

/-- The three tables of the store. -/
structure DB where
  routes : List Route
  trips : List Trip
  stop_times : List StopTime
deriving DecidableEq

def DB.empty : DB := ⟨[], [], []⟩

/-- SQLAlchemy session state: committed rows, the open transaction's
uncommitted rows, and the three PostgreSQL id sequences. -/
structure Session where
  committed : DB
  txn : DB
  nextRouteId : Nat
  nextTripId : Nat
  nextStopTimeId : Nat
deriving DecidableEq

/-- Session right after `drop_all` + `create_all`: empty tables, sequences
reset to 1. -/
def initSession : Session := ⟨DB.empty, DB.empty, 1, 1, 1⟩

/-- Routes visible to a query inside the open transaction: committed rows
plus rows already flushed in this transaction. -/
def visibleRoutes (s : Session) : List Route :=
  s.committed.routes ++ s.txn.routes

/-- `session.rollback()`: discard every uncommitted write of the open
transaction.  Sequences are non-transactional and keep their values. -/
def sessionRollback (s : Session) : Session :=
  { s with txn := DB.empty }

/-- `session.commit()`: make the transaction's writes durable. -/
def sessionCommit (s : Session) : Session :=
  { s with
    committed := ⟨s.committed.routes ++ s.txn.routes,
                  s.committed.trips ++ s.txn.trips,
                  s.committed.stop_times ++ s.txn.stop_times⟩,
    txn := DB.empty }

/-- A pandas row: column name ↦ value, `none` = NaN. -/
abbrev Row := List (String × Option String)

/-- The fixed "no value" sentinel written by the source (U+03A7). -/
def noValueToken : String := "Χ"

/-- Column used for `Trip.notes` in the source. -/
def notesColumn : String := "운행 특이사항"

/-- `str(row[c]) if c in row and pd.notna(row[c]) else None` (line 92). -/
def notesStr (row : Row) : Option String :=
  match row.lookup notesColumn with
  | some (some v) => some v
  | _ => none

/-- Lines 100–104: `'Χ'` when the column is absent from the row or the cell
is NaN, otherwise the cell's string value verbatim. -/
def timeStr (row : Row) (c : String) : String :=
  match row.lookup c with
  | some (some v) => v
  | _ => noValueToken

/-- The StopTimes built for one trip by the inner loop of lines 98–112:
one per configured column, `stop_sequence = i + 1` in configured order. -/
def mkStopTimes (baseId tripId : Nat) (row : Row) (cols : List String) :
    List StopTime :=
  cols.enum.map fun p =>
    ⟨baseId + p.1, tripId, p.2, timeStr row p.2, p.1 + 1⟩

/-- `get_or_create_route` (lines 52–58): query by name against the
transaction's view; if absent, add and flush a new `Route` so that its
generated id is available. -/
def get_or_create_route (s : Session) (route_name : String) :
    Route × Session :=
  match (visibleRoutes s).find? (fun r => r.route_name == route_name) with
  | some r => (r, s)
  | none =>
    let r : Route := ⟨s.nextRouteId, route_name⟩
    (r, { s with
          txn := { s.txn with routes := s.txn.routes ++ [r] },
          nextRouteId := s.nextRouteId + 1 })

/-- Body of the per-row loop (lines 85–118).  `raises = true` models a
Python exception thrown while building this row's Trip/StopTimes; the
`except` branch then calls `session.rollback()` and continues.  Flushing the
new Trip checks its `route_id` foreign key against the transaction's view;
a violation raises an `IntegrityError`, also caught by the same `except`. -/
def processRow (s : Session) (route : Route) (day_type : String)
    (cols : List String) (row : Row) (raises : Bool) : Session :=
  if raises then
    sessionRollback s
  else
    let new_trip : Trip := ⟨s.nextTripId, route.route_id, day_type, notesStr row⟩
    if (visibleRoutes s).any (fun r => r.route_id == route.route_id) then
      { s with
        txn := { s.txn with
                 trips := s.txn.trips ++ [new_trip],
                 stop_times := s.txn.stop_times ++
                   mkStopTimes s.nextStopTimeId new_trip.trip_id row cols },
        nextTripId := s.nextTripId + 1,
        nextStopTimeId := s.nextStopTimeId + cols.length }
    else
      sessionRollback { s with nextTripId := s.nextTripId + 1 }

/-- The `for _, row in df.iterrows()` loop; the oracle gives each row's
position-indexed "an exception occurs here" bit. -/
def processRows (s : Session) (route : Route) (day_type : String)
    (cols : List String) (rows : List Row) (raises : Nat → Bool) : Session :=
  match rows with
  | [] => s
  | row :: rest =>
    processRows (processRow s route day_type cols row (raises 0))
      route day_type cols rest (fun i => raises (i + 1))

/-- Result of `pd.read_csv`: file missing, undecodable/unparsable, or a list
of data rows. -/
inductive ReadResult where
  | missing
  | unreadable
  | ok (rows : List Row)

/-- `load_csv_to_db` (lines 61–120).  Missing and unreadable files are
caught locally and the function returns with the session untouched.  An
exception inside `get_or_create_route` (modelled by `routeRaises`) is NOT
inside any `try` of this function, so it propagates (`Except.error` carries
the session state at the moment of the raise). -/
def load_csv_to_db (s : Session) (file : ReadResult)
    (route_name day_type : String) (stop_columns : List String)
    (routeRaises : Bool) (rowRaises : Nat → Bool) :
    Except Session Session :=
  match file with
  | ReadResult.missing => Except.ok s
  | ReadResult.unreadable => Except.ok s
  | ReadResult.ok rows =>
    if routeRaises then Except.error s
    else
      let p := get_or_create_route s route_name
      Except.ok (processRows p.2 p.1 day_type stop_columns rows rowRaises)

/-- One entry of the hardcoded `files_to_load` list. -/
structure FileConfig where
  file_name : String
  route_name : String
  day_type : String
  stops : List String
deriving DecidableEq

/-- The run's environment: file contents per file name, plus the exception
oracles for route resolution and per-row construction. -/
structure RunEnv where
  readFile : String → ReadResult
  routeRaises : String → Bool
  rowRaises : String → Nat → Bool

/-- The `for config in files_to_load` loop (lines 202–209); a raised
exception aborts the loop and propagates. -/
def loadAll (env : RunEnv) (cfgs : List FileConfig) (s : Session) :
    Except Session Session :=
  match cfgs with
  | [] => Except.ok s
  | cfg :: rest =>
    match load_csv_to_db s (env.readFile cfg.file_name) cfg.route_name
        cfg.day_type cfg.stops (env.routeRaises cfg.file_name)
        (env.rowRaises cfg.file_name) with
    | Except.error e => Except.error e
    | Except.ok s1 => loadAll env rest s1

/-- The `__main__` driver (lines 124–221): drop_all/create_all wipes the
store (and its sequences) whatever it held, every configured file is loaded
in one session, then one `commit`; if any exception escapes, `rollback`
discards the whole run and the store keeps its post-create (empty) state.
The session is closed either way (no state effect). -/
def runDriver (_store : DB) (env : RunEnv) (cfgs : List FileConfig) : DB :=
  match loadAll env cfgs initSession with
  | Except.ok s => (sessionCommit s).committed
  | Except.error e => (sessionRollback e).committed

/-- The hardcoded file list (lines 138–199). -/
def files_to_load : List FileConfig :=
  [ ⟨"천안터미널(평일).csv", "천안터미널", "평일",
      ["학교(출발)", "천안터미널", "두정동 맥도날드", "홈마트 에브리데이",
       "서울대정병원", "학교(도착)"]⟩,
    ⟨"온양역,터미널(평일).csv", "온양역,터미널", "평일",
      ["학교(출발)", "주은아파트", "온양온천역", "아산터미널", "권곡초",
       "학교(도착)"]⟩,
    ⟨"천안아산역(일요일).csv", "천안아산역", "일요일",
      ["학교(출발)", "천안아산역", "학교(도착)"]⟩,
    ⟨"천안아산역(토,공휴일)..csv", "천안아산역", "토,공휴일",
      ["학교(출발)", "천안아산역", "학교(도착)"]⟩,
    ⟨"천안아산역(평일).csv", "천안아산역", "평일",
      ["학교(출발)", "천안아산역", "학교(도착)"]⟩,
    ⟨"천안역(일요일).csv", "천안역", "일요일",
      ["학교(출발)", "천안역", "학교(도착)"]⟩,
    ⟨"천안역(토,공휴일).csv", "천안역", "토,공휴일",
      ["학교(출발)", "천안역", "학교(도착)"]⟩,
    ⟨"천안역(평일).csv", "천안역", "평일",
      ["학교(출발)", "천안역 출발", "하이렉스파 건너편", "용암마을",
       "학교(도착)"]⟩,
    ⟨"천안터미널(일요일).csv", "천안터미널", "일요일",
      ["학교(출발)", "천안터미널", "학교(도착)"]⟩,
    ⟨"천안터미널(토,공휴일).csv", "천안터미널", "토,공휴일",
      ["학교(출발)", "천안터미널", "학교(도착)"]⟩ ]

/-! ### Specification predicates (stated over the embedded store) -/

/-- Every trip's stop times, in creation order, are exactly one per
configured column of some configured file (dense `stop_sequence` 1..N in
configured column order). -/
def TripStopsSpec (cfgs : List FileConfig) (trips : List Trip)
    (stops : List StopTime) : Prop :=
  ∀ t ∈ trips, ∃ cfg ∈ cfgs, t.day_type = cfg.day_type ∧
    ((stops.filter (fun st => st.trip_id == t.trip_id)).map
        (fun st => (st.stop_name, st.stop_sequence)))
      = cfg.stops.enum.map (fun p => (p.2, p.1 + 1))

/-- Every trip is attached to a stored route named after its file's
configured route name. -/
def TripRouteSpec (cfgs : List FileConfig) (trips : List Trip)
    (routes : List Route) : Prop :=
  ∀ t ∈ trips, ∃ cfg ∈ cfgs, t.day_type = cfg.day_type ∧
    ∃ r ∈ routes, r.route_name = cfg.route_name ∧ t.route_id = r.route_id

/-- Invariant of the open session during a run: nothing is committed yet,
ids are below their sequences, route ids are unique, and the transaction's
trips/stop_times/routes satisfy the two shape predicates. -/
def TxnInv (cfgs : List FileConfig) (s : Session) : Prop :=
  s.committed = DB.empty ∧
  (∀ r ∈ s.txn.routes, r.route_id < s.nextRouteId) ∧
  s.txn.routes.Pairwise (fun a b => a.route_id ≠ b.route_id) ∧
  (∀ t ∈ s.txn.trips, t.trip_id < s.nextTripId) ∧
  (∀ st ∈ s.txn.stop_times, st.trip_id < s.nextTripId) ∧
  TripStopsSpec cfgs s.txn.trips s.txn.stop_times ∧
  TripRouteSpec cfgs s.txn.trips s.txn.routes

/-- Rows as produced by `pd.read_csv` with its default NA handling: an
empty field becomes NaN (`none`), never the empty string. -/
abbrev ValidRow (row : Row) : Prop := ∀ p ∈ row, p.2 ≠ some ""

/-- Exactly one stored (transaction) route per name already processed,
none for other names. -/
def RouteCountInv (names : List String) (s : Session) : Prop :=
  ∀ n, ((s.txn.routes.filter (fun r => r.route_name == n)).length)
    = if n ∈ names then 1 else 0

/-! ### Concrete scenario inputs used by witnesses and counterexamples -/

def c1row0 : Row :=
  [("순", some "1"), ("학교(출발)", some "08:00"), ("학교(도착)", some "08:30")]

def c1row1 : Row :=
  [("순", some "2"), ("학교(출발)", some "09:00"), ("학교(도착)", some "09:30")]

def c1cfg : FileConfig :=
  ⟨"천안터미널(평일).csv", "천안터미널", "평일", ["학교(출발)", "학교(도착)"]⟩

/-- Run environment for the row-failure scenario: one readable file with
two data rows, the second of which raises during construction. -/
def c1env : RunEnv :=
  ⟨fun _ => ReadResult.ok [c1row0, c1row1], fun _ => false, fun _ i => i == 1⟩

def cwRow : Row :=
  [("순", some "1"), ("학교(출발)", some "08:00"), ("천안역", some "08:10"),
   ("학교(도착)", some "08:30"), ("운행 특이사항", some "우천시 운행")]

def cwCfg : FileConfig :=
  ⟨"천안역(일요일).csv", "천안역", "일요일", ["학교(출발)", "천안역", "학교(도착)"]⟩

/-- Clean environment: one readable file with one well-formed row, no
exceptions anywhere. -/
def cwEnv : RunEnv :=
  ⟨fun _ => ReadResult.ok [cwRow], fun _ => false, fun _ _ => false⟩

/-- Session with one flushed route, as it is right after route resolution. -/
def cwSession : Session := (get_or_create_route initSession "천안역").2

def cwRoute : Route := (get_or_create_route initSession "천안역").1

/-- A second configured file sharing `cwCfg`'s route name. -/
def c2wcfg : FileConfig :=
  ⟨"천안역(토,공휴일).csv", "천안역", "토,공휴일",
   ["학교(출발)", "천안역", "학교(도착)"]⟩

def c5cfg : FileConfig :=
  ⟨"천안아산역(토,공휴일)..csv", "천안아산역", "토,공휴일",
   ["학교(출발)", "천안아산역", "학교(도착)"]⟩

/-- Environment where exactly the known-corrupt file is unreadable. -/
def c5env : RunEnv :=
  ⟨fun f => if f == "천안아산역(토,공휴일)..csv" then ReadResult.unreadable
    else ReadResult.ok [cwRow],
   fun _ => false, fun _ _ => false⟩

def c6cfgA : FileConfig :=
  ⟨"온양역,터미널(평일).csv", "온양역,터미널", "평일", ["학교(출발)", "학교(도착)"]⟩

def c6cfgB : FileConfig :=
  ⟨"천안역(평일).csv", "천안역", "평일", ["학교(출발)", "학교(도착)"]⟩

/-- Environment where the second file's route resolution raises after the
first file already flushed a Route. -/
def c6env : RunEnv :=
  ⟨fun _ => ReadResult.ok [], fun f => f == "천안역(평일).csv", fun _ _ => false⟩

def c10cfg : FileConfig :=
  ⟨"천안아산역(평일).csv", "천안아산역", "평일", ["학교(출발)", "학교(도착)"]⟩

/-- Environment whose route resolution raises on every file. -/
def c10env : RunEnv :=
  ⟨fun _ => ReadResult.ok [c1row0], fun _ => true, fun _ _ => false⟩

/-! ### Helper lemmas -/

theorem loadAll_skip (env : RunEnv) (cfg : FileConfig)
    (h : env.readFile cfg.file_name = ReadResult.missing ∨
         env.readFile cfg.file_name = ReadResult.unreadable) :
    ∀ (cfgs1 cfgs2 : List FileConfig) (s : Session),
    loadAll env (cfgs1 ++ cfg :: cfgs2) s = loadAll env (cfgs1 ++ cfgs2) s := by
  intro cfgs1
  induction cfgs1 with
  | nil =>
    intro cfgs2 s
    cases h with
    | inl h => simp [loadAll, load_csv_to_db, h]
    | inr h => simp [loadAll, load_csv_to_db, h]
  | cons c rest ih =>
    intro cfgs2 s
    simp only [List.cons_append, loadAll]
    cases hres : load_csv_to_db s (env.readFile c.file_name) c.route_name
        c.day_type c.stops (env.routeRaises c.file_name)
        (env.rowRaises c.file_name) with
    | error e => rfl
    | ok s1 => exact ih cfgs2 s1

/-- Characterization of `get_or_create_route`: either the name is found and
the session is untouched, or a fresh route is added and flushed. -/
theorem goc_spec (s : Session) (n : String) :
    (∃ r, (visibleRoutes s).find? (fun x => x.route_name == n) = some r ∧
        get_or_create_route s n = (r, s)) ∨
    ((visibleRoutes s).find? (fun x => x.route_name == n) = none ∧
        get_or_create_route s n =
          (⟨s.nextRouteId, n⟩,
           { s with
             txn := { s.txn with
                      routes := s.txn.routes ++ [⟨s.nextRouteId, n⟩] },
             nextRouteId := s.nextRouteId + 1 })) := by
  cases h : (visibleRoutes s).find? (fun x => x.route_name == n) with
  | some r => exact Or.inl ⟨r, rfl, by simp [get_or_create_route, h]⟩
  | none => exact Or.inr ⟨rfl, by simp [get_or_create_route, h]⟩

theorem goc_fst_name (s : Session) (n : String) :
    (get_or_create_route s n).1.route_name = n := by
  rcases goc_spec s n with ⟨r, hf, heq⟩ | ⟨hf, heq⟩
  · rw [heq]
    have := List.find?_some hf
    simpa using this
  · rw [heq]

theorem processRow_raise_eq (s : Session) (route : Route) (d : String)
    (cols : List String) (row : Row) :
    processRow s route d cols row true = sessionRollback s := rfl

theorem processRow_ok_eq (s : Session) (route : Route) (d : String)
    (cols : List String) (row : Row)
    (hfk : (visibleRoutes s).any (fun r => r.route_id == route.route_id) = true) :
    processRow s route d cols row false =
      { s with
        txn := { s.txn with
                 trips := s.txn.trips ++
                   [⟨s.nextTripId, route.route_id, d, notesStr row⟩],
                 stop_times := s.txn.stop_times ++
                   mkStopTimes s.nextStopTimeId s.nextTripId row cols },
        nextTripId := s.nextTripId + 1,
        nextStopTimeId := s.nextStopTimeId + cols.length } := by
  simp [processRow, hfk]

theorem processRow_fkfail_eq (s : Session) (route : Route) (d : String)
    (cols : List String) (row : Row)
    (hfk : (visibleRoutes s).any (fun r => r.route_id == route.route_id) = false) :
    processRow s route d cols row false =
      sessionRollback { s with nextTripId := s.nextTripId + 1 } := by
  simp [processRow, hfk]

theorem mkStopTimes_trip_id (b tid : Nat) (row : Row) (cols : List String) :
    ∀ st ∈ mkStopTimes b tid row cols, st.trip_id = tid := by
  intro st h
  simp only [mkStopTimes, List.mem_map] at h
  obtain ⟨p, _, rfl⟩ := h
  rfl

theorem mkStopTimes_pairs (b tid : Nat) (row : Row) (cols : List String) :
    (mkStopTimes b tid row cols).map (fun st => (st.stop_name, st.stop_sequence))
      = cols.enum.map (fun p => (p.2, p.1 + 1)) := by
  simp only [mkStopTimes, List.map_map]
  rfl

theorem mkStopTimes_filter_self (b tid : Nat) (row : Row) (cols : List String) :
    (mkStopTimes b tid row cols).filter (fun st => st.trip_id == tid)
      = mkStopTimes b tid row cols := by
  apply List.filter_eq_self.mpr
  intro st hst
  simp [mkStopTimes_trip_id b tid row cols st hst]

theorem mkStopTimes_filter_ne (b tid tid' : Nat) (row : Row)
    (cols : List String) (h : tid' ≠ tid) :
    (mkStopTimes b tid row cols).filter (fun st => st.trip_id == tid') = [] := by
  apply List.filter_eq_nil_iff.mpr
  intro st hst
  simp [mkStopTimes_trip_id b tid row cols st hst, Ne.symm h]

theorem pairwise_key_unique {l : List Route}
    (hp : l.Pairwise (fun a b => a.route_id ≠ b.route_id)) :
    ∀ a ∈ l, ∀ b ∈ l, a.route_id = b.route_id → a = b := by
  induction l with
  | nil => simp
  | cons x xs ih =>
    rcases List.pairwise_cons.mp hp with ⟨hx, hxs⟩
    intro a ha b hb heq
    rcases List.mem_cons.mp ha with ha1 | ha1
    · rcases List.mem_cons.mp hb with hb1 | hb1
      · rw [ha1, hb1]
      · rw [ha1] at heq ⊢
        exact absurd heq (hx b hb1)
    · rcases List.mem_cons.mp hb with hb1 | hb1
      · rw [hb1] at heq ⊢
        exact absurd heq.symm (hx a ha1)
      · exact ih hxs a ha1 b hb1 heq

theorem txnInv_of_txn_empty {cfgs : List FileConfig} {s : Session}
    (h : s.committed = DB.empty) (ht : s.txn = DB.empty) : TxnInv cfgs s := by
  refine ⟨h, ?_, ?_, ?_, ?_, ?_, ?_⟩ <;>
    simp [ht, DB.empty, TripStopsSpec, TripRouteSpec]

theorem txnInv_init (cfgs : List FileConfig) : TxnInv cfgs initSession :=
  txnInv_of_txn_empty rfl rfl

/-- Core preservation: one loop iteration of lines 85–118 keeps the session
invariant, whatever happens (success, injected exception, or foreign-key
failure at flush), and either leaves the routes untouched or empties them. -/
theorem txnInv_processRow (cfgs : List FileConfig) (cfg : FileConfig)
    (s : Session) (route : Route) (row : Row) (b : Bool)
    (h : TxnInv cfgs s) (hcfg : cfg ∈ cfgs)
    (hname : route.route_name = cfg.route_name)
    (hid : ∀ r ∈ s.txn.routes, r.route_id = route.route_id →
      r.route_name = route.route_name) :
    TxnInv cfgs (processRow s route cfg.day_type cfg.stops row b) ∧
    ((processRow s route cfg.day_type cfg.stops row b).txn.routes
        = s.txn.routes ∨
     (processRow s route cfg.day_type cfg.stops row b).txn.routes = []) := by
  obtain ⟨h1, h2, h3, h4, h5, h6, h7⟩ := h
  cases b with
  | true =>
    rw [processRow_raise_eq]
    exact ⟨txnInv_of_txn_empty h1 rfl, Or.inr rfl⟩
  | false =>
    cases hfk : (visibleRoutes s).any (fun r => r.route_id == route.route_id) with
    | false =>
      rw [processRow_fkfail_eq s route cfg.day_type cfg.stops row hfk]
      exact ⟨txnInv_of_txn_empty h1 rfl, Or.inr rfl⟩
    | true =>
      rw [processRow_ok_eq s route cfg.day_type cfg.stops row hfk]
      refine ⟨⟨h1, h2, h3, ?_, ?_, ?_, ?_⟩, Or.inl rfl⟩
      · intro t ht
        rcases List.mem_append.mp ht with ht | ht
        · exact Nat.lt_succ_of_lt (h4 t ht)
        · rw [List.mem_singleton.mp ht]
          exact Nat.lt_succ_self _
      · intro st hst
        rcases List.mem_append.mp hst with hst | hst
        · exact Nat.lt_succ_of_lt (h5 st hst)
        · rw [mkStopTimes_trip_id _ _ _ _ st hst]
          exact Nat.lt_succ_self _
      · intro t ht
        rcases List.mem_append.mp ht with ht | ht
        · obtain ⟨cfg', hcfg', hday, heq⟩ := h6 t ht
          refine ⟨cfg', hcfg', hday, ?_⟩
          rw [List.filter_append,
            mkStopTimes_filter_ne _ _ _ _ _ (Nat.ne_of_lt (h4 t ht)),
            List.append_nil, heq]
        · rw [List.mem_singleton.mp ht]
          refine ⟨cfg, hcfg, rfl, ?_⟩
          have hold : s.txn.stop_times.filter
              (fun st => st.trip_id == s.nextTripId) = [] := by
            apply List.filter_eq_nil_iff.mpr
            intro st hst
            simp [Nat.ne_of_lt (h5 st hst)]
          rw [List.filter_append, hold, List.nil_append,
            mkStopTimes_filter_self, mkStopTimes_pairs]
      · intro t ht
        rcases List.mem_append.mp ht with ht | ht
        · exact h7 t ht
        · rw [List.mem_singleton.mp ht]
          obtain ⟨r, hrmem, hrid⟩ := List.any_eq_true.mp hfk
          have hrtxn : r ∈ s.txn.routes := by
            have : visibleRoutes s = s.txn.routes := by
              simp [visibleRoutes, h1, DB.empty]
            rwa [this] at hrmem
          refine ⟨cfg, hcfg, rfl, r, hrtxn, ?_, ?_⟩
          · rw [hid r hrtxn (Nat.beq_eq ▸ (by simpa using hrid)), hname]
          · exact (by simpa using hrid : r.route_id = route.route_id).symm

/-- The whole per-row loop preserves the session invariant. -/
theorem txnInv_processRows (cfgs : List FileConfig) (cfg : FileConfig)
    (route : Route) (rows : List Row) :
    ∀ (s : Session) (raises : Nat → Bool),
    TxnInv cfgs s → cfg ∈ cfgs → route.route_name = cfg.route_name →
    (∀ r ∈ s.txn.routes, r.route_id = route.route_id →
      r.route_name = route.route_name) →
    TxnInv cfgs (processRows s route cfg.day_type cfg.stops rows raises) := by
  induction rows with
  | nil => intro s raises h _ _ _; exact h
  | cons row rest ih =>
    intro s raises h hcfg hname hid
    have step := txnInv_processRow cfgs cfg s route row (raises 0) h hcfg hname hid
    show TxnInv cfgs (processRows (processRow s route cfg.day_type cfg.stops row
      (raises 0)) route cfg.day_type cfg.stops rest (fun i => raises (i + 1)))
    apply ih _ _ step.1 hcfg hname
    rcases step.2 with heq | heq
    · rw [heq]; exact hid
    · rw [heq]; intro r hr; exact absurd hr (List.not_mem_nil r)

/-- `get_or_create_route` preserves the invariant; moreover the returned
route carries the requested name and is the only transaction route with its
id. -/
theorem txnInv_goc (cfgs : List FileConfig) (s : Session) (n : String)
    (h : TxnInv cfgs s) :
    TxnInv cfgs (get_or_create_route s n).2 ∧
    (get_or_create_route s n).1.route_name = n ∧
    (∀ r ∈ (get_or_create_route s n).2.txn.routes,
      r.route_id = (get_or_create_route s n).1.route_id →
      r.route_name = (get_or_create_route s n).1.route_name) := by
  obtain ⟨h1, h2, h3, h4, h5, h6, h7⟩ := h
  have hvis : visibleRoutes s = s.txn.routes := by
    simp [visibleRoutes, h1, DB.empty]
  rcases goc_spec s n with ⟨r0, hf, heq⟩ | ⟨hf, heq⟩
  · rw [heq]
    refine ⟨⟨h1, h2, h3, h4, h5, h6, h7⟩, ?_, ?_⟩
    · have := List.find?_some hf
      simpa using this
    · intro r hr hrid
      have hr0 : r0 ∈ s.txn.routes := by
        rw [← hvis]; exact List.mem_of_find?_eq_some hf
      exact congrArg Route.route_name (pairwise_key_unique h3 r hr r0 hr0 hrid)
  · rw [heq]
    refine ⟨⟨h1, ?_, ?_, h4, h5, h6, ?_⟩, rfl, ?_⟩
    · intro r hr
      rcases List.mem_append.mp hr with hr | hr
      · exact Nat.lt_succ_of_lt (h2 r hr)
      · rw [List.mem_singleton.mp hr]
        exact Nat.lt_succ_self _
    · refine List.pairwise_append.mpr ⟨h3, List.pairwise_singleton _ _, ?_⟩
      intro a ha b hb
      rw [List.mem_singleton.mp hb]
      exact Nat.ne_of_lt (h2 a ha)
    · intro t ht
      obtain ⟨cfg', hcfg', hday, r, hrmem, hrn, hri⟩ := h7 t ht
      exact ⟨cfg', hcfg', hday, r, List.mem_append_left _ hrmem, hrn, hri⟩
    · intro r hr hrid
      rcases List.mem_append.mp hr with hr | hr
      · exact absurd hrid (Nat.ne_of_lt (h2 r hr))
      · rw [List.mem_singleton.mp hr]

/-- One `load_csv_to_db` call preserves the invariant, on both the normal
and the exceptional exit. -/
theorem txnInv_load (cfgs : List FileConfig) (cfg : FileConfig) (env : RunEnv)
    (s : Session) (h : TxnInv cfgs s) (hcfg : cfg ∈ cfgs) :
    (∀ s', load_csv_to_db s (env.readFile cfg.file_name) cfg.route_name
        cfg.day_type cfg.stops (env.routeRaises cfg.file_name)
        (env.rowRaises cfg.file_name) = Except.ok s' → TxnInv cfgs s') ∧
    (∀ e, load_csv_to_db s (env.readFile cfg.file_name) cfg.route_name
        cfg.day_type cfg.stops (env.routeRaises cfg.file_name)
        (env.rowRaises cfg.file_name) = Except.error e → TxnInv cfgs e) := by
  cases henv : env.readFile cfg.file_name with
  | missing =>
    constructor
    · intro s' hs'
      simp [load_csv_to_db] at hs'
      rwa [← hs']
    · intro e he
      simp [load_csv_to_db] at he
  | unreadable =>
    constructor
    · intro s' hs'
      simp [load_csv_to_db] at hs'
      rwa [← hs']
    · intro e he
      simp [load_csv_to_db] at he
  | ok rows =>
    cases hrr : env.routeRaises cfg.file_name with
    | true =>
      constructor
      · intro s' hs'
        simp [load_csv_to_db, hrr] at hs'
      · intro e he
        simp [load_csv_to_db, hrr] at he
        rwa [← he]
    | false =>
      obtain ⟨hg, hgname, hgid⟩ := txnInv_goc cfgs s cfg.route_name h
      constructor
      · intro s' hs'
        simp [load_csv_to_db, hrr] at hs'
        rw [← hs']
        exact txnInv_processRows cfgs cfg _ rows _ _ hg hcfg hgname hgid
      · intro e he
        simp [load_csv_to_db, hrr] at he

/-- The file loop preserves the invariant, on both exits. -/
theorem txnInv_loadAll (env : RunEnv) (cfgsAll : List FileConfig) :
    ∀ (cfgs : List FileConfig) (s : Session),
    (∀ cfg ∈ cfgs, cfg ∈ cfgsAll) → TxnInv cfgsAll s →
    (∀ s', loadAll env cfgs s = Except.ok s' → TxnInv cfgsAll s') ∧
    (∀ e, loadAll env cfgs s = Except.error e → TxnInv cfgsAll e) := by
  intro cfgs
  induction cfgs with
  | nil =>
    intro s _ h
    constructor
    · intro s' hs'
      simp [loadAll] at hs'
      rwa [← hs']
    · intro e he
      simp [loadAll] at he
  | cons c rest ih =>
    intro s hsub h
    have hload := txnInv_load cfgsAll c env s h (hsub c (List.mem_cons_self c rest))
    have hsubr : ∀ cfg ∈ rest, cfg ∈ cfgsAll :=
      fun cfg hcfg => hsub cfg (List.mem_cons_of_mem c hcfg)
    simp only [loadAll]
    cases hres : load_csv_to_db s (env.readFile c.file_name) c.route_name
        c.day_type c.stops (env.routeRaises c.file_name)
        (env.rowRaises c.file_name) with
    | error e =>
      constructor
      · intro s' hs'
        exact absurd hs' (by simp)
      · intro e' he'
        have : e' = e := by simpa using he'.symm
        rw [this]
        exact hload.2 e hres
    | ok s1 =>
      exact ih s1 hsubr (hload.1 s1 hres)

/-- What the driver commits: on a clean run, exactly the transaction the
loop accumulated; on an escaped exception, nothing at all. -/
theorem runDriver_final (store : DB) (env : RunEnv) (cfgs : List FileConfig) :
    (∀ e, loadAll env cfgs initSession = Except.error e →
      runDriver store env cfgs = DB.empty ∧ e.committed = DB.empty) ∧
    (∀ s, loadAll env cfgs initSession = Except.ok s →
      runDriver store env cfgs = ⟨s.txn.routes, s.txn.trips, s.txn.stop_times⟩ ∧
      TxnInv cfgs s) := by
  have hall := txnInv_loadAll env cfgs cfgs initSession (fun _ hc => hc)
    (txnInv_init cfgs)
  constructor
  · intro e he
    have hinv := hall.2 e he
    constructor
    · simp only [runDriver, he, sessionRollback]
      exact hinv.1
    · exact hinv.1
  · intro s hs
    have hinv := hall.1 s hs
    refine ⟨?_, hinv⟩
    simp only [runDriver, hs, sessionCommit]
    have h1 := hinv.1
    show (⟨s.committed.routes ++ s.txn.routes, s.committed.trips ++ s.txn.trips,
      s.committed.stop_times ++ s.txn.stop_times⟩ : DB) = _
    rw [h1]
    show (⟨[] ++ s.txn.routes, [] ++ s.txn.trips,
      [] ++ s.txn.stop_times⟩ : DB) = _
    simp

/-- The committed store of any run satisfies the two shape predicates. -/
theorem runDriver_spec (store : DB) (env : RunEnv) (cfgs : List FileConfig) :
    TripStopsSpec cfgs (runDriver store env cfgs).trips
      (runDriver store env cfgs).stop_times ∧
    TripRouteSpec cfgs (runDriver store env cfgs).trips
      (runDriver store env cfgs).routes := by
  cases hres : loadAll env cfgs initSession with
  | error e =>
    have h := (runDriver_final store env cfgs).1 e hres
    rw [h.1]
    exact ⟨fun t ht => absurd ht (List.not_mem_nil t),
      fun t ht => absurd ht (List.not_mem_nil t)⟩
  | ok s =>
    obtain ⟨heq, hinv⟩ := (runDriver_final store env cfgs).2 s hres
    rw [heq]
    exact ⟨hinv.2.2.2.2.2.1, hinv.2.2.2.2.2.2⟩

/-- A successful `List.lookup` result is a member of the association list
(keys compare with lawful `==`, so the key may be rewritten). -/
theorem lookup_mem {c : String} {v : Option String} :
    ∀ {row : Row}, row.lookup c = some v → (c, v) ∈ row := by
  intro row
  induction row with
  | nil => intro h; simp [List.lookup] at h
  | cons p rest ih =>
    obtain ⟨k, w⟩ := p
    intro h
    rw [List.lookup_cons] at h
    cases hk : c == k with
    | true =>
      rw [hk] at h
      obtain rfl : w = v := Option.some.inj h
      rw [eq_of_beq hk]
      exact List.mem_cons_self _ _
    | false =>
      rw [hk] at h
      exact List.mem_cons_of_mem _ (ih h)

/-- In a no-failure iteration the per-row loop never touches the routes
table nor the committed state. -/
theorem processRows_nofail (route : Route) (d : String) (cols : List String)
    (rows : List Row) :
    ∀ (s : Session) (raises : Nat → Bool), (∀ i, raises i = false) →
    (visibleRoutes s).any (fun r => r.route_id == route.route_id) = true →
    (processRows s route d cols rows raises).txn.routes = s.txn.routes ∧
    (processRows s route d cols rows raises).committed = s.committed := by
  induction rows with
  | nil => intro s raises _ _; exact ⟨rfl, rfl⟩
  | cons row rest ih =>
    intro s raises hr hfk
    have hfk' : (visibleRoutes (processRow s route d cols row (raises 0))).any
        (fun r => r.route_id == route.route_id) = true := by
      rw [hr 0, processRow_ok_eq s route d cols row hfk]
      exact hfk
    have hih := ih (processRow s route d cols row (raises 0))
      (fun i => raises (i + 1)) (fun i => hr (i + 1)) hfk'
    show (processRows (processRow s route d cols row (raises 0))
        route d cols rest (fun i => raises (i + 1))).txn.routes = _ ∧ _
    refine ⟨hih.1.trans ?_, hih.2.trans ?_⟩
    · rw [hr 0, processRow_ok_eq s route d cols row hfk]
    · rw [hr 0, processRow_ok_eq s route d cols row hfk]

/-- The resolved route is visible in the resulting session. -/
theorem goc_fst_mem (s : Session) (n : String) :
    (get_or_create_route s n).1 ∈ visibleRoutes (get_or_create_route s n).2 := by
  rcases goc_spec s n with ⟨r, hf, heq⟩ | ⟨hf, heq⟩
  · rw [heq]
    exact List.mem_of_find?_eq_some hf
  · rw [heq]
    simp [visibleRoutes]

/-- Effect of one no-failure `load_csv_to_db` call on the routes table:
either the name was already there and the routes are untouched, or exactly
one new route with the requested name is appended. -/
theorem load_nofail (env : RunEnv) (cfg : FileConfig) (rows : List Row)
    (s : Session)
    (henv : env.readFile cfg.file_name = ReadResult.ok rows)
    (hrr : env.routeRaises cfg.file_name = false)
    (hrow : ∀ i, env.rowRaises cfg.file_name i = false)
    (hcomm : s.committed = DB.empty) :
    ∃ s', load_csv_to_db s (env.readFile cfg.file_name) cfg.route_name
        cfg.day_type cfg.stops (env.routeRaises cfg.file_name)
        (env.rowRaises cfg.file_name) = Except.ok s' ∧
      s'.committed = DB.empty ∧
      ((∃ r, (visibleRoutes s).find? (fun x => x.route_name == cfg.route_name)
            = some r ∧ s'.txn.routes = s.txn.routes) ∨
       ((visibleRoutes s).find? (fun x => x.route_name == cfg.route_name)
            = none ∧
        s'.txn.routes = s.txn.routes ++ [⟨s.nextRouteId, cfg.route_name⟩])) := by
  rw [henv, hrr]
  refine ⟨processRows (get_or_create_route s cfg.route_name).2
    (get_or_create_route s cfg.route_name).1 cfg.day_type cfg.stops rows
    (env.rowRaises cfg.file_name), by simp [load_csv_to_db], ?_, ?_⟩
  · have hfk : (visibleRoutes (get_or_create_route s cfg.route_name).2).any
        (fun r => r.route_id ==
          (get_or_create_route s cfg.route_name).1.route_id) = true :=
      List.any_eq_true.mpr ⟨_, goc_fst_mem s cfg.route_name, by simp⟩
    have hpr := processRows_nofail (get_or_create_route s cfg.route_name).1
      cfg.day_type cfg.stops rows (get_or_create_route s cfg.route_name).2
      (env.rowRaises cfg.file_name) (hrow) hfk
    rw [hpr.2]
    rcases goc_spec s cfg.route_name with ⟨r, _, heq⟩ | ⟨_, heq⟩ <;>
      rw [heq] <;> exact hcomm
  · have hfk : (visibleRoutes (get_or_create_route s cfg.route_name).2).any
        (fun r => r.route_id ==
          (get_or_create_route s cfg.route_name).1.route_id) = true :=
      List.any_eq_true.mpr ⟨_, goc_fst_mem s cfg.route_name, by simp⟩
    have hpr := processRows_nofail (get_or_create_route s cfg.route_name).1
      cfg.day_type cfg.stops rows (get_or_create_route s cfg.route_name).2
      (env.rowRaises cfg.file_name) (hrow) hfk
    rw [hpr.1]
    rcases goc_spec s cfg.route_name with ⟨r, hf, heq⟩ | ⟨hf, heq⟩
    · exact Or.inl ⟨r, hf, by rw [heq]⟩
    · exact Or.inr ⟨hf, by rw [heq]⟩

/-- No-failure runs create exactly one route per distinct configured name:
loop invariant over the file list. -/
theorem countInv_loadAll (env : RunEnv) :
    ∀ (cfgs : List FileConfig) (names : List String) (s : Session),
    (∀ cfg ∈ cfgs, ∃ rows, env.readFile cfg.file_name = ReadResult.ok rows) →
    (∀ f, env.routeRaises f = false) →
    (∀ f i, env.rowRaises f i = false) →
    s.committed = DB.empty →
    RouteCountInv names s →
    ∃ s', loadAll env cfgs s = Except.ok s' ∧ s'.committed = DB.empty ∧
      RouteCountInv (names ++ cfgs.map (fun c => c.route_name)) s' := by
  intro cfgs
  induction cfgs with
  | nil =>
    intro names s _ _ _ hc hcount
    exact ⟨s, rfl, hc, by simpa using hcount⟩
  | cons c rest ih =>
    intro names s hread hrr hrow hc hcount
    obtain ⟨rows, henv⟩ := hread c (List.mem_cons_self c rest)
    obtain ⟨s1, hload, hc1, hshape⟩ :=
      load_nofail env c rows s henv (hrr _) (fun i => hrow _ i) hc
    have hvis : visibleRoutes s = s.txn.routes := by
      simp [visibleRoutes, hc, DB.empty]
    have hcount1 : RouteCountInv (names ++ [c.route_name]) s1 := by
      intro n
      by_cases hn : n = c.route_name
      · rw [hn]
        rcases hshape with ⟨r, hf, hroutes⟩ | ⟨hf, hroutes⟩
        · -- name already present: count stays 1
          have hr1 : r ∈ s.txn.routes := by
            rw [← hvis]; exact List.mem_of_find?_eq_some hf
          have hrn : (r.route_name == c.route_name) = true := by
            have := List.find?_some hf
            simpa using this
          have hpos : 0 <
              ((s.txn.routes.filter
                (fun x => x.route_name == c.route_name)).length) :=
            List.length_pos.mpr (by
              intro hnil
              have : r ∈ s.txn.routes.filter
                  (fun x => x.route_name == c.route_name) :=
                List.mem_filter.mpr ⟨hr1, hrn⟩
              rw [hnil] at this
              exact List.not_mem_nil r this)
          have hmemn : c.route_name ∈ names := by
            by_contra hni
            rw [hcount c.route_name, if_neg hni] at hpos
            exact Nat.lt_irrefl 0 hpos
          rw [hroutes, hcount c.route_name, if_pos hmemn,
            if_pos (List.mem_append_left _ hmemn)]
        · -- new name: count goes 0 → 1
          have hzero : s.txn.routes.filter
              (fun x => x.route_name == c.route_name) = [] := by
            apply List.filter_eq_nil_iff.mpr
            intro x hx
            exact (List.find?_eq_none.mp hf) x (hvis ▸ hx)
          have hni : c.route_name ∉ names := by
            intro hmem
            have := hcount c.route_name
            rw [hzero, if_pos hmem] at this
            exact Nat.zero_ne_one this
          rw [hroutes, List.filter_append, hzero, List.nil_append]
          simp [if_pos (List.mem_append_right names (List.mem_singleton.mpr rfl))]
      · -- other names: count unchanged
        have hif : (if n ∈ names ++ [c.route_name] then 1 else 0)
            = (if n ∈ names then 1 else 0) := by
          by_cases hm : n ∈ names
          · rw [if_pos hm, if_pos (List.mem_append_left _ hm)]
          · rw [if_neg hm, if_neg (by
              intro hmem
              rcases List.mem_append.mp hmem with h | h
              · exact hm h
              · exact hn (List.mem_singleton.mp h))]
        rcases hshape with ⟨r, _, hroutes⟩ | ⟨_, hroutes⟩
        · rw [hroutes, hif]; exact hcount n
        · have hb : ((⟨s.nextRouteId, c.route_name⟩ : Route).route_name == n)
              = false := beq_eq_false_iff_ne.mpr (Ne.symm hn)
          have hnew : ([(⟨s.nextRouteId, c.route_name⟩ : Route)].filter
              (fun x => x.route_name == n)) = [] := by
            simp [List.filter_cons, hb]
          rw [hroutes, List.filter_append, hnew, List.append_nil, hif]
          exact hcount n
    obtain ⟨s', hloadAll, hc', hcount'⟩ := ih (names ++ [c.route_name]) s1
      (fun cfg hcfg => hread cfg (List.mem_cons_of_mem c hcfg)) hrr hrow hc1
      hcount1
    refine ⟨s', ?_, hc', ?_⟩
    · show (match load_csv_to_db s (env.readFile c.file_name) c.route_name
          c.day_type c.stops (env.routeRaises c.file_name)
          (env.rowRaises c.file_name) with
        | Except.error e => Except.error e
        | Except.ok s1 => loadAll env rest s1) = Except.ok s'
      rw [hload]
      exact hloadAll
    · rw [List.append_assoc] at hcount'
      simpa using hcount'

/-! ### Claim theorems -/

/-- C1 (code bug evidence): the spec requires row-level isolation — with
two data rows of which the second raises, the first row's Trip should still
be committed.  The code's `session.rollback()` discards the whole open
transaction instead: the first conjunct shows that the first row alone
produces one (uncommitted) Trip, yet the full run over both rows commits an
empty store (zero Trips, not the M−1 = 1 the claim requires). -/
theorem C1_row_failure_discards_whole_transaction :
    (load_csv_to_db initSession (ReadResult.ok [c1row0]) "천안터미널" "평일"
        ["학교(출발)", "학교(도착)"] false (fun _ => false)).map
        (fun s => s.txn.trips.length) = Except.ok 1
    ∧ runDriver DB.empty c1env [c1cfg] = DB.empty
    ∧ (runDriver DB.empty c1env [c1cfg]).trips.length ≠ 1 :=
  ⟨rfl, rfl, by decide⟩

/-- C5: a missing file and an unreadable/unparsable file are both handled
inside `load_csv_to_db`: the session is returned unchanged (zero
Routes/Trips/StopTimes created), no exception propagates, and a run over a
file list containing such a file behaves exactly like the run over the list
without it, so every subsequent file is still processed. -/
theorem C5_missing_and_unreadable_files_are_local :
    (∀ (s : Session) (n d : String) (cols : List String) (b : Bool)
        (o : Nat → Bool),
      load_csv_to_db s ReadResult.missing n d cols b o = Except.ok s ∧
      load_csv_to_db s ReadResult.unreadable n d cols b o = Except.ok s) ∧
    (∀ (env : RunEnv) (cfg : FileConfig),
      (env.readFile cfg.file_name = ReadResult.missing ∨
       env.readFile cfg.file_name = ReadResult.unreadable) →
      ∀ (cfgs1 cfgs2 : List FileConfig) (s : Session),
        loadAll env (cfgs1 ++ cfg :: cfgs2) s = loadAll env (cfgs1 ++ cfgs2) s) :=
  ⟨fun _ _ _ _ _ _ => ⟨rfl, rfl⟩, fun env cfg h => loadAll_skip env cfg h⟩

/-- C8: the driver starts every run with `drop_all` + `create_all`, which
wipes the three tables and their id sequences whatever the store held.
Hence a second execution over the same inputs produces the same store (and
in particular the same row counts) as a single execution — data is never
doubled. -/
theorem C8_run_is_idempotent_by_reset :
    ∀ (store : DB) (env : RunEnv) (cfgs : List FileConfig),
    runDriver (runDriver store env cfgs) env cfgs = runDriver store env cfgs ∧
    ((runDriver (runDriver store env cfgs) env cfgs).routes.length,
     (runDriver (runDriver store env cfgs) env cfgs).trips.length,
     (runDriver (runDriver store env cfgs) env cfgs).stop_times.length)
      = ((runDriver store env cfgs).routes.length,
         (runDriver store env cfgs).trips.length,
         (runDriver store env cfgs).stop_times.length) :=
  fun _ _ _ => ⟨rfl, rfl⟩

/-- `get_or_create_route` is idempotent: immediately repeating a call with
the same name returns the same route and leaves the session unchanged. -/
theorem goc_idem : ∀ (s : Session) (n : String) (r : Route) (s' : Session),
    get_or_create_route s n = (r, s') → get_or_create_route s' n = (r, s') := by
  intro s n r s' h
  rcases goc_spec s n with ⟨r0, hf, heq⟩ | ⟨hf, heq⟩
  · have h' := heq.symm.trans h
    injection h' with hr1 hr2
    rw [← hr2, ← hr1]
    exact heq
  · have h' := heq.symm.trans h
    injection h' with hr1 hr2
    rw [← hr2, ← hr1]
    have hf' : (s.committed.routes ++ s.txn.routes).find?
        (fun x => x.route_name == n) = none := hf
    have hfind : (visibleRoutes { s with
        txn := { s.txn with
                 routes := s.txn.routes ++ [(⟨s.nextRouteId, n⟩ : Route)] },
        nextRouteId := s.nextRouteId + 1 }).find?
        (fun x => x.route_name == n) = some (⟨s.nextRouteId, n⟩ : Route) := by
      show (s.committed.routes ++
          (s.txn.routes ++ [(⟨s.nextRouteId, n⟩ : Route)])).find?
        (fun x => x.route_name == n) = some (⟨s.nextRouteId, n⟩ : Route)
      rw [← List.append_assoc, List.find?_append, hf']
      simp [List.find?_cons]
    simp [get_or_create_route, hfind]

/-- If some reached configured file is readable but its route resolution
raises, the whole file loop ends in the exceptional exit. -/
theorem loadAll_error_of_mem (env : RunEnv) (cfg : FileConfig)
    (hre : ∃ rows, env.readFile cfg.file_name = ReadResult.ok rows)
    (hraise : env.routeRaises cfg.file_name = true) :
    ∀ (cfgs : List FileConfig), cfg ∈ cfgs → ∀ s : Session,
    ∃ e, loadAll env cfgs s = Except.error e := by
  intro cfgs
  induction cfgs with
  | nil => intro h; exact absurd h (List.not_mem_nil cfg)
  | cons c rest ih =>
    intro hmem s
    cases hres : load_csv_to_db s (env.readFile c.file_name) c.route_name
        c.day_type c.stops (env.routeRaises c.file_name)
        (env.rowRaises c.file_name) with
    | error e => exact ⟨e, by simp [loadAll, hres]⟩
    | ok s1 =>
      rcases List.mem_cons.mp hmem with h1 | h1
      · exfalso
        obtain ⟨rows, hrows⟩ := hre
        rw [← h1, hrows] at hres
        simp [load_csv_to_db, hraise] at hres
      · obtain ⟨e, he⟩ := ih h1 s1
        exact ⟨e, by simp [loadAll, hres, he]⟩

/-- C2 counterexample: two calls to `get_or_create_route` with the same
name inside one run return different Routes when a row-level failure (and
its whole-transaction rollback) happens in between.  The first call (made
by loading a file of this route whose only row raises) returns route id 1;
the rollback discards that route; the next file's call returns a fresh
route id 2. -/
theorem C2_counterexample :
    (get_or_create_route initSession "천안역").1 = ⟨1, "천안역"⟩ ∧
    load_csv_to_db initSession (ReadResult.ok [c1row0]) "천안역" "일요일"
        ["학교(출발)", "천안역", "학교(도착)"] false (fun _ => true)
      = Except.ok ⟨DB.empty, DB.empty, 2, 1, 1⟩ ∧
    (get_or_create_route ⟨DB.empty, DB.empty, 2, 1, 1⟩ "천안역").1
      = ⟨2, "천안역"⟩ ∧
    (get_or_create_route initSession "천안역").1
      ≠ (get_or_create_route ⟨DB.empty, DB.empty, 2, 1, 1⟩ "천안역").1 := by
  exact ⟨by decide, rfl, by decide, by decide⟩

/-- C2 (amended): immediately repeated calls with the same name return the
same Route; and in a run where every file is readable and no construction
failure occurs, the committed store holds exactly one Route per distinct
configured route name, and every Trip is attached to the stored Route
named after its file's configured name. -/
theorem C2_route_resolution_is_duplicate_free :
    (∀ (s : Session) (n : String) (r : Route) (s' : Session),
      get_or_create_route s n = (r, s') →
      get_or_create_route s' n = (r, s')) ∧
    (∀ (store : DB) (env : RunEnv) (cfgs : List FileConfig),
      (∀ cfg ∈ cfgs, ∃ rows, env.readFile cfg.file_name = ReadResult.ok rows) →
      (∀ f, env.routeRaises f = false) →
      (∀ f i, env.rowRaises f i = false) →
      (∀ n, (((runDriver store env cfgs).routes.filter
            (fun r => r.route_name == n)).length)
          = if n ∈ cfgs.map (fun c => c.route_name) then 1 else 0) ∧
      TripRouteSpec cfgs (runDriver store env cfgs).trips
        (runDriver store env cfgs).routes) := by
  constructor
  · exact goc_idem
  · intro store env cfgs hread hrr hrow
    obtain ⟨s', hloadAll, _, hcount⟩ := countInv_loadAll env cfgs [] initSession
      hread hrr hrow rfl (by intro n; simp [initSession, DB.empty])
    obtain ⟨heq, _⟩ := (runDriver_final store env cfgs).2 s' hloadAll
    constructor
    · intro n
      rw [heq]
      have := hcount n
      simpa using this
    · exact (runDriver_spec store env cfgs).2

/-- C3: every Trip in the committed store of any run was built from some
configured file and owns exactly that file's stop columns as StopTimes:
listed in creation order they carry the configured column names with dense
`stop_sequence` values 1..N in configured order (N = length of that file's
configured stop-column list). -/
theorem C3_stop_sequences_are_dense :
    ∀ (store : DB) (env : RunEnv) (cfgs : List FileConfig),
    ∀ t ∈ (runDriver store env cfgs).trips,
      ∃ cfg ∈ cfgs, t.day_type = cfg.day_type ∧
        (((runDriver store env cfgs).stop_times.filter
            (fun st => st.trip_id == t.trip_id)).map
          (fun st => (st.stop_name, st.stop_sequence)))
        = cfg.stops.enum.map (fun p => (p.2, p.1 + 1)) :=
  fun store env cfgs => (runDriver_spec store env cfgs).1

/-- C3 witness: in the concrete one-file one-row run, the committed trip's
stop times are the three configured columns with sequences 1, 2, 3. -/
theorem C3_witness :
    ∃ cfg ∈ [cwCfg],
      (⟨1, 1, "일요일", some "우천시 운행"⟩ : Trip).day_type = cfg.day_type ∧
      (((runDriver DB.empty cwEnv [cwCfg]).stop_times.filter
          (fun st => st.trip_id ==
            (⟨1, 1, "일요일", some "우천시 운행"⟩ : Trip).trip_id)).map
        (fun st => (st.stop_name, st.stop_sequence)))
      = cfg.stops.enum.map (fun p => (p.2, p.1 + 1)) :=
  C3_stop_sequences_are_dense DB.empty cwEnv [cwCfg]
    ⟨1, 1, "일요일", some "우천시 운행"⟩ (by decide)

/-- C4: for each configured stop column of a successfully processed row,
the created StopTime's `time` is the fixed sentinel when the column is
absent from the row or its value is null, and the verbatim value otherwise;
for rows whose present values are non-empty (as `pd.read_csv` guarantees)
it is never the empty string (and, being a `String` field, never null). -/
theorem C4_time_sentinel_or_verbatim (s : Session) (route : Route)
    (d : String) (cols : List String) (row : Row)
    (hfk : (visibleRoutes s).any (fun r => r.route_id == route.route_id) = true)
    (hval : ValidRow row) :
    ∃ sts, (processRow s route d cols row false).txn.stop_times
        = s.txn.stop_times ++ sts ∧
      sts.length = cols.length ∧
      ∀ i c, cols.get? i = some c →
        ∃ st, sts.get? i = some st ∧ st.stop_name = c ∧
          st.stop_sequence = i + 1 ∧
          (row.lookup c = none → st.time = noValueToken) ∧
          (row.lookup c = some none → st.time = noValueToken) ∧
          (∀ v, row.lookup c = some (some v) → st.time = v) ∧
          st.time ≠ "" := by
  refine ⟨mkStopTimes s.nextStopTimeId s.nextTripId row cols, ?_, ?_, ?_⟩
  · rw [processRow_ok_eq s route d cols row hfk]
  · simp [mkStopTimes, List.enum_length]
  · intro i c hc
    refine ⟨⟨s.nextStopTimeId + i, s.nextTripId, c, timeStr row c, i + 1⟩,
      ?_, rfl, rfl, ?_, ?_, ?_, ?_⟩
    · simp only [mkStopTimes, List.get?_map, List.get?_enum, hc,
        Option.map_some']
    · intro h
      simp [timeStr, h]
    · intro h
      simp [timeStr, h]
    · intro v h
      simp [timeStr, h]
    · show timeStr row c ≠ ""
      cases hl : row.lookup c with
      | none => simp only [timeStr, hl]; decide
      | some o =>
        cases o with
        | none => simp only [timeStr, hl]; decide
        | some v =>
          have hv : some v ≠ some "" := hval _ (lookup_mem hl)
          simp only [timeStr, hl]
          intro hve
          exact hv (by rw [hve])

/-- C4 witness at a concrete session, route and well-formed row. -/
theorem C4_witness :
    ∃ sts, (processRow cwSession cwRoute "일요일" cwCfg.stops cwRow
        false).txn.stop_times = cwSession.txn.stop_times ++ sts ∧
      sts.length = cwCfg.stops.length ∧
      ∀ i c, cwCfg.stops.get? i = some c →
        ∃ st, sts.get? i = some st ∧ st.stop_name = c ∧
          st.stop_sequence = i + 1 ∧
          (cwRow.lookup c = none → st.time = noValueToken) ∧
          (cwRow.lookup c = some none → st.time = noValueToken) ∧
          (∀ v, cwRow.lookup c = some (some v) → st.time = v) ∧
          st.time ≠ "" :=
  C4_time_sentinel_or_verbatim cwSession cwRoute "일요일" cwCfg.stops cwRow
    (by decide) (by decide)

/-- C6: whenever the file loop ends with an escaped exception, the driver
commits nothing: the store is left in its post-`create_all` (empty) state,
and indeed nothing had been committed at the moment of the raise. -/
theorem C6_escaped_exception_rolls_back_everything :
    ∀ (store : DB) (env : RunEnv) (cfgs : List FileConfig) (e : Session),
    loadAll env cfgs initSession = Except.error e →
    runDriver store env cfgs = DB.empty ∧ e.committed = DB.empty :=
  fun store env cfgs e he => (runDriver_final store env cfgs).1 e he

/-- C6 witness: the first file flushed a Route (partial progress), the
second file's route resolution raises, and the final store is empty. -/
theorem C6_witness :
    loadAll c6env [c6cfgA, c6cfgB] initSession
      = Except.error ⟨DB.empty, ⟨[⟨1, "온양역,터미널"⟩], [], []⟩, 2, 1, 1⟩ ∧
    runDriver DB.empty c6env [c6cfgA, c6cfgB] = DB.empty :=
  ⟨rfl, (C6_escaped_exception_rolls_back_everything DB.empty c6env
    [c6cfgA, c6cfgB] ⟨DB.empty, ⟨[⟨1, "온양역,터미널"⟩], [], []⟩, 2, 1, 1⟩
    rfl).1⟩

/-- C7: a successfully processed row yields exactly one new Trip whose
`day_type` is the configured label and whose `notes` is the row's special
notes value exactly when that column is present with a non-null value
(which, for CSV-parsed rows, is always a non-empty string), and null
otherwise. -/
theorem C7_trip_day_type_and_notes (s : Session) (route : Route)
    (d : String) (cols : List String) (row : Row)
    (hfk : (visibleRoutes s).any (fun r => r.route_id == route.route_id) = true)
    (hval : ValidRow row) :
    ∃ t, (processRow s route d cols row false).txn.trips
        = s.txn.trips ++ [t] ∧
      t.day_type = d ∧
      (∀ v, t.notes = some v ↔ row.lookup notesColumn = some (some v)) ∧
      ((row.lookup notesColumn = none ∨ row.lookup notesColumn = some none) →
        t.notes = none) ∧
      (∀ v, t.notes = some v → v ≠ "") := by
  refine ⟨⟨s.nextTripId, route.route_id, d, notesStr row⟩, ?_, rfl, ?_, ?_, ?_⟩
  · rw [processRow_ok_eq s route d cols row hfk]
  · intro v
    constructor
    · intro h
      cases hl : row.lookup notesColumn with
      | none => simp [notesStr, hl] at h
      | some o =>
        cases o with
        | none => simp [notesStr, hl] at h
        | some w =>
          have hwv : w = v := by simpa [notesStr, hl] using h
          rw [hwv]
    · intro h
      simp [notesStr, h]
  · intro h
    cases h with
    | inl h => simp [notesStr, h]
    | inr h => simp [notesStr, h]
  · intro v h
    have hl : row.lookup notesColumn = some (some v) := by
      cases hl : row.lookup notesColumn with
      | none => simp [notesStr, hl] at h
      | some o =>
        cases o with
        | none => simp [notesStr, hl] at h
        | some w =>
          have hwv : w = v := by simpa [notesStr, hl] using h
          rw [hwv]
    have hv : some v ≠ some "" := hval _ (lookup_mem hl)
    intro hve
    exact hv (by rw [hve])

/-- C7 witness at a concrete session, route and well-formed row. -/
theorem C7_witness :
    ∃ t, (processRow cwSession cwRoute "일요일" cwCfg.stops cwRow
        false).txn.trips = cwSession.txn.trips ++ [t] ∧
      t.day_type = "일요일" ∧
      (∀ v, t.notes = some v ↔ cwRow.lookup notesColumn = some (some v)) ∧
      ((cwRow.lookup notesColumn = none ∨
        cwRow.lookup notesColumn = some none) → t.notes = none) ∧
      (∀ v, t.notes = some v → v ≠ "") :=
  C7_trip_day_type_and_notes cwSession cwRoute "일요일" cwCfg.stops cwRow
    (by decide) (by decide)

/-- C9: every configured stop-column list of the hardcoded file list is
non-empty, and in any run every committed Trip owns at least one StopTime
(they are created in the same unit of work and discarded together by any
rollback). -/
theorem C9_no_committed_trip_is_stoptime_less :
    (∀ cfg ∈ files_to_load, cfg.stops ≠ []) ∧
    (∀ (store : DB) (env : RunEnv) (cfgs : List FileConfig),
      (∀ cfg ∈ cfgs, cfg.stops ≠ []) →
      ∀ t ∈ (runDriver store env cfgs).trips,
        ∃ st ∈ (runDriver store env cfgs).stop_times,
          st.trip_id = t.trip_id) := by
  constructor
  · decide
  · intro store env cfgs hne t ht
    obtain ⟨cfg, hcfg, _, heq⟩ := (runDriver_spec store env cfgs).1 t ht
    have hlen : ((runDriver store env cfgs).stop_times.filter
        (fun st => st.trip_id == t.trip_id)).length = cfg.stops.length := by
      have hl := congrArg List.length heq
      simpa [List.enum_length] using hl
    have hpos : 0 < ((runDriver store env cfgs).stop_times.filter
        (fun st => st.trip_id == t.trip_id)).length := by
      rw [hlen]
      exact List.length_pos.mpr (hne cfg hcfg)
    obtain ⟨st, hst⟩ := List.exists_mem_of_length_pos hpos
    have hm := List.mem_filter.mp hst
    exact ⟨st, hm.1, by simpa using hm.2⟩

/-- C9 witness: the concrete one-file one-row run commits a trip and it
owns a stop time. -/
theorem C9_witness :
    ∃ st ∈ (runDriver DB.empty cwEnv [cwCfg]).stop_times,
      st.trip_id = (⟨1, 1, "일요일", some "우천시 운행"⟩ : Trip).trip_id :=
  C9_no_committed_trip_is_stoptime_less.2 DB.empty cwEnv [cwCfg] (by decide)
    ⟨1, 1, "일요일", some "우천시 운행"⟩ (by decide)

/-- C10: an exception raised during route resolution of a readable file is
not absorbed inside `load_csv_to_db`: the file loop ends in the
exceptional exit and the driver performs the run-level full rollback,
committing nothing — unlike missing files, unreadable files and per-row
failures, which are all handled locally. -/
theorem C10_route_resolution_errors_propagate :
    ∀ (store : DB) (env : RunEnv) (cfgs : List FileConfig) (cfg : FileConfig),
    cfg ∈ cfgs →
    (∃ rows, env.readFile cfg.file_name = ReadResult.ok rows) →
    env.routeRaises cfg.file_name = true →
    (∃ e, loadAll env cfgs initSession = Except.error e) ∧
    runDriver store env cfgs = DB.empty := by
  intro store env cfgs cfg hmem hre hraise
  obtain ⟨e, he⟩ := loadAll_error_of_mem env cfg hre hraise cfgs hmem initSession
  exact ⟨⟨e, he⟩, ((runDriver_final store env cfgs).1 e he).1⟩

/-- C10 witness: a single readable file whose route resolution raises makes
the run commit nothing. -/
theorem C10_witness :
    (∃ e, loadAll c10env [c10cfg] initSession = Except.error e) ∧
    runDriver DB.empty c10env [c10cfg] = DB.empty :=
  C10_route_resolution_errors_propagate DB.empty c10env [c10cfg] c10cfg
    (List.mem_cons_self c10cfg []) ⟨[c1row0], rfl⟩ rfl

/-- C5 witness: the run over three files where the middle one is the
known-corrupt file equals the run without it, and a missing file leaves the
session untouched. -/
theorem C5_witness :
    load_csv_to_db initSession ReadResult.missing "천안역" "평일"
      ["학교(출발)"] false (fun _ => false) = Except.ok initSession ∧
    loadAll c5env ([cwCfg] ++ c5cfg :: [c10cfg]) initSession
      = loadAll c5env ([cwCfg] ++ [c10cfg]) initSession :=
  ⟨(C5_missing_and_unreadable_files_are_local.1 initSession "천안역" "평일"
      ["학교(출발)"] false (fun _ => false)).1,
   C5_missing_and_unreadable_files_are_local.2 c5env c5cfg (Or.inr rfl)
     [cwCfg] [c10cfg] initSession⟩

/-- C2 witness: repeating the resolution of an existing name returns the
same route, and the concrete clean run over two files sharing the route
name 천안역 commits exactly one route of that name. -/
theorem C2_witness :
    get_or_create_route cwSession "천안역" = (⟨1, "천안역"⟩, cwSession) ∧
    ((runDriver DB.empty cwEnv [cwCfg, c2wcfg]).routes.filter
        (fun r => r.route_name == "천안역")).length = 1 := by
  constructor
  · exact C2_route_resolution_is_duplicate_free.1 initSession "천안역"
      ⟨1, "천안역"⟩ cwSession (by decide)
  · have h := (C2_route_resolution_is_duplicate_free.2 DB.empty cwEnv
      [cwCfg, c2wcfg] (fun cfg _ => ⟨[cwRow], rfl⟩) (fun _ => rfl)
      (fun _ _ => rfl)).1 "천안역"
    rw [if_pos (by decide)] at h
    exact h
